import Mathlib

/-!
Shallow embedding of the `statmodel` core (statmodel/core.go) of the
carbocation/statmodel repository, together with theorems settling the
specification claims about it.

Modelling conventions:
* `Dtype` (Go `float64`) is embedded as `ℚ`.  The external numeric library
  functions `math.Sqrt` and `math.Erfc` are not part of this repository, so
  they are passed as explicit function parameters `sqrt erfc : ℚ → ℚ`.
* Go slices become `List ℚ`; a `nil` slice that signals absence becomes
  `Option (List ℚ)`; `panic` and returned `error` values become
  `Except String`.
* The `BaseResults` accessors mutate their receiver (lazy caches), so they
  are embedded in state-passing style: each returns its value paired with
  the updated `BaseResults`.
* Go's `range` over a possibly-`nil` slice field is embedded by ranging over
  `Option.getD _ []`, and slice reads/writes that Go bounds-checks are
  embedded with explicit bounds (`List.get?` / guarded writes) where a claim
  depends on the panic behaviour.
-/

namespace Statmodel

/-- Go `type Dtype = float64`, embedded as `ℚ`. -/
abbrev Dtype := ℚ

/-- Go `HessType` with its two constants `ObsHess` and `ExpHess`. -/
inductive HessType where
  | ObsHess : HessType
  | ExpHess : HessType
deriving DecidableEq

/-- Go `Columnser` interface: named data columns. -/
structure Columnser where
  names : List String
  data : List (List Dtype)

/-- Go `basicData`, the default implementation of the `Dataset` interface. -/
structure BasicData where
  data : List (List Dtype)
  yname : String
  varnames : List String
  xnames : List String
deriving DecidableEq

/-- Go `FromColumns`: wraps columns as a dataset, with no validation at all. -/
def FromColumns (c : Columnser) (yname : String) (xnames : List String) : BasicData :=
  { data := c.data, yname := yname, varnames := c.names, xnames := xnames }

/-- Go `NewDataset`: panics (here: `Except.error`) iff `len(data) ≠ len(varnames)`;
performs no check that `yname` or the `xnames` occur among `varnames`. -/
def NewDataset (data : List (List Dtype)) (varnames : List String) (yname : String)
    (xnames : List String) : Except String BasicData :=
  if data.length ≠ varnames.length then
    Except.error ("len(data)=" ++ toString data.length ++ " and len(varnames)=" ++
      toString varnames.length ++ " are not compatible")
  else
    Except.ok { data := data, varnames := varnames, yname := yname, xnames := xnames }

/-- Go `RegFitter` interface.  A `Parameter` is embedded as its coefficient
vector `List Dtype` (the only part this layer reads). -/
structure RegFitter where
  numParams : Nat
  numObs : Nat
  xpos : List Nat
  dataset : List (List Dtype)
  loglike : List Dtype → Bool → Dtype
  score : List Dtype → List Dtype
  hessian : List Dtype → HessType → List Dtype

/-- Go `BaseResults`: point estimates plus lazily-populated caches. -/
structure BaseResults where
  model : RegFitter
  loglike : Dtype
  params : List Dtype
  xnames : List String
  vcov : Option (List Dtype)
  stderr : Option (List Dtype)
  zscores : Option (List Dtype)
  pvalues : Option (List Dtype)

/-- Go `NewBaseResults`: all lazy caches start out absent (`nil`). -/
def NewBaseResults (model : RegFitter) (loglike : Dtype) (params : List Dtype)
    (xnames : List String) (vcov : Option (List Dtype)) : BaseResults :=
  { model := model, loglike := loglike, params := params, xnames := xnames,
    vcov := vcov, stderr := none, zscores := none, pvalues := none }

/-- Go `(*BaseResults).Params`. -/
def BaseResults.Params (r : BaseResults) : List Dtype := r.params

/-- Go `(*BaseResults).LogLike`. -/
def BaseResults.LogLike (r : BaseResults) : Dtype := r.loglike

/-- Go `(*BaseResults).VCov`. -/
def BaseResults.VCov (r : BaseResults) : Option (List Dtype) := r.vcov

/-- Go `(*BaseResults).Names`. -/
def BaseResults.Names (r : BaseResults) : List String := r.xnames

/-- Go `(*BaseResults).StdErr`.  Returns `nil` when `vcov` is `nil`; otherwise
returns the cached vector if present, else fills a fresh length-`p` vector with
`sqrt(vcov[i*p+i])` and caches it. -/
def BaseResults.StdErr (sqrt : ℚ → ℚ) (r : BaseResults) :
    Option (List Dtype) × BaseResults :=
  match r.vcov with
  | none => (none, r)
  | some v =>
    let p := r.model.numParams
    match r.stderr with
    | some s => (some s, r)
    | none =>
      let s := (List.range p).map fun i => sqrt (v.getD (i * p + i) 0)
      (some s, { r with stderr := some s })

/-- Go `(*BaseResults).ZScores`.  Returns `nil` when `vcov` is `nil`; otherwise
returns the cached vector if present, else calls `StdErr` (computing it on
demand), allocates a zero vector of length `p` and overwrites entry `i` with
`params[i] / std[i]` for every index `i` of `std`. -/
def BaseResults.ZScores (sqrt : ℚ → ℚ) (r : BaseResults) :
    Option (List Dtype) × BaseResults :=
  match r.vcov with
  | none => (none, r)
  | some _ =>
    let p := r.model.numParams
    match r.zscores with
    | some z => (some z, r)
    | none =>
      let sr := BaseResults.StdErr sqrt r
      let r1 := sr.snd
      let std := sr.fst.getD []
      let z := (List.range p).map fun i =>
        if i < std.length then r1.params.getD i 0 / std.getD i 0 else 0
      (some z, { r1 with zscores := some z })

/-- Go `normcdf`: `0.5 * math.Erfc(-x/math.Sqrt(2))`, with the external library
functions `math.Erfc` and `math.Sqrt` passed as parameters. -/
def normcdf (sqrt erfc : ℚ → ℚ) (x : ℚ) : ℚ :=
  (1 / 2) * erfc (-x / sqrt 2)

/-- Go `(*BaseResults).PValues`.  Returns `nil` when `vcov` is `nil`; otherwise
returns the cached vector if present, else allocates a zero vector of length
`p` and overwrites entry `i` with `2*normcdf(-|z|)` for every index `i` of the
`zscores` CACHE FIELD (`for i, z := range rslt.zscores`) — it does not call
`ZScores()`, so with an unpopulated cache the loop body never runs. -/
def BaseResults.PValues (sqrt erfc : ℚ → ℚ) (r : BaseResults) :
    Option (List Dtype) × BaseResults :=
  match r.vcov with
  | none => (none, r)
  | some _ =>
    let p := r.model.numParams
    match r.pvalues with
    | some pv => (some pv, r)
    | none =>
      let zs := r.zscores.getD []
      let pv := (List.range p).map fun i =>
        if i < zs.length then 2 * normcdf sqrt erfc (-|zs.getD i 0|) else 0
      (some pv, { r with pvalues := some pv })

/-- One iteration of the inner loop of Go `(*BaseResults).FittedValues`:
`z := da[j]; for i := range z { fv[i] += params[k] * z[i] }`.
The read `params[k]` happens only when `z` is nonempty; the write `fv[i]`
panics (here: `Except.error`) as soon as `i` reaches `len(fv)`. -/
def fittedStep (params : List Dtype) (fv : List Dtype) (k : Nat) (z : List Dtype) :
    Except String (List Dtype) :=
  match z with
  | [] => Except.ok fv
  | _ =>
    match params.get? k with
    | none => Except.error "index out of range"
    | some c =>
      if z.length ≤ fv.length then
        Except.ok ((List.range fv.length).map fun i =>
          fv.getD i 0 + if i < z.length then c * z.getD i 0 else 0)
      else Except.error "index out of range"

/-- The outer loop of Go `(*BaseResults).FittedValues`:
`for k, j := range xpos { z := da[j]; ... }`, threading the output buffer. -/
def fittedLoop (params : List Dtype) (da : List (List Dtype)) :
    List (Nat × Nat) → List Dtype → Except String (List Dtype)
  | [], fv => Except.ok fv
  | (k, j) :: rest, fv =>
    match da.get? j with
    | none => Except.error "index out of range"
    | some z =>
      match fittedStep params fv k z with
      | Except.ok fv2 => fittedLoop params da rest fv2
      | Except.error e => Except.error e

/-- Go `(*BaseResults).FittedValues`.  `none` stands for the Go `nil` argument,
in which case the training dataset is used.  The column-count check panics
(here: `Except.error`) on mismatch; the output buffer has length `NumObs()`. -/
def BaseResults.FittedValues (r : BaseResults) (da : Option (List (List Dtype))) :
    Except String (List Dtype) :=
  let xpos := r.model.xpos
  let d := da.getD r.model.dataset
  if d.length ≠ r.model.dataset.length then
    Except.error ("Data has incorrect number of columns, " ++ toString d.length ++
      " != " ++ toString r.model.dataset.length)
  else
    fittedLoop r.params d xpos.enum (List.replicate r.model.numObs 0)

/-- Reads the row-major `n*n` buffer `v` as a square matrix, as
`mat.NewDense(nvar, nvar, hess)` does in Go `GetVcov`. -/
def matOf (n : Nat) (v : List Dtype) : Matrix (Fin n) (Fin n) ℚ :=
  Matrix.of fun i j => v.getD (i.val * n + j.val) 0

/-- Writes a square matrix back to its row-major buffer (the backing slice of
the `mat.Dense` that Go `GetVcov` returns). -/
def flatten (n : Nat) (M : Matrix (Fin n) (Fin n) ℚ) : List Dtype :=
  List.ofFn fun k : Fin (n * n) =>
    M ⟨k.val / n, by
        have hn : 0 < n := by
          rcases Nat.eq_zero_or_pos n with h | h
          · exact absurd k.isLt (by simp [h])
          · exact h
        exact (Nat.div_lt_iff_lt_mul hn).mpr k.isLt⟩
      ⟨k.val % n, by
        have hn : 0 < n := by
          rcases Nat.eq_zero_or_pos n with h | h
          · exact absurd k.isLt (by simp [h])
          · exact h
        exact Nat.mod_lt _ hn⟩

/-- Go `GetVcov`: fills an `nvar*nvar` buffer with the expected Hessian,
inverts it as a square matrix (error when singular, as gonum's
`Dense.Inverse` reports for an exactly singular matrix), negates the inverse
in place and returns its backing buffer. -/
def GetVcov (m : RegFitter) (params : List Dtype) : Except String (List Dtype) :=
  let nvar := m.numParams
  let hess := m.hessian params HessType.ExpHess
  let hmat := matOf nvar hess
  if hmat.det = 0 then
    Except.error "Can't invert Hessian"
  else
    Except.ok (flatten nvar (-(hmat.det⁻¹ • hmat.adjugate)))

/-- Go `SummaryTable`, parametrized by the element type `α` of the columns
(Go uses `interface{}` plus caller-supplied `Fmter` functions). -/
structure SummaryTable (α : Type) where
  Title : String
  ColNames : List String
  ColFmt : List (α → String → List String)
  Cols : List α
  Top : List String
  Msg : List String

/-- Pad `s` on the right with spaces to width `w` (Go `fmt.Sprintf("%-Nds", s)`;
a longer string is left unchanged, as in Go). -/
def padRightTo (s : String) (w : Nat) : String :=
  s ++ String.mk (List.replicate (w - s.length) ' ')

/-- Pad `s` on the left with spaces to width `w` (Go `fmt.Sprintf("%Nds", s)`;
a longer string is left unchanged, as in Go). -/
def padLeftTo (s : String) (w : Nat) : String :=
  String.mk (List.replicate (w - s.length) ' ') ++ s

/-- Go `(*SummaryTable).line`: a rule line of width `tw`. -/
def lineOf (tw : Nat) (c : Char) : String :=
  String.mk (List.replicate tw c) ++ "\n"

/-- Go `(*SummaryTable).cleanTop`: pad every `Top` entry to the width of the
widest entry (the fold starts from `len(Top[0])`). -/
def cleanTop (top : List String) : List String :=
  let w := top.foldl (fun w x => max w x.length) (top.headD "").length
  top.map fun x => if x.length < w then x ++ String.mk (List.replicate (w - x.length) ' ') else x

/-- Go `(*SummaryTable).top`: the metadata block, two left-aligned columns of
widths `w[0]`, `w[1]`, a newline after every second entry and a trailing
newline when the number of entries is odd. -/
def topBlock (top : List String) (gap : Nat) : String :=
  let w0 := (top.enum.filter fun q => q.fst % 2 = 0).foldl (fun w q => max w q.snd.length) 0
  let w1 := (top.enum.filter fun q => q.fst % 2 = 1).foldl (fun w q => max w q.snd.length) 0
  let body := String.join (top.enum.map fun q =>
    padRightTo q.snd (if q.fst % 2 = 0 then w0 else w1) ++
      (if q.fst % 2 = 1 then "\n" else String.mk (List.replicate gap ' ')))
  body ++ (if top.length % 2 = 1 then "\n" else "")

/-- The formatted columns `tab` of Go `(*SummaryTable).String`:
`tab[j] = s.ColFmt[j](s.Cols[j], s.ColNames[j])`. -/
def colFmtOut {α : Type} (s : SummaryTable α) : List (List String) :=
  (s.Cols.zip (s.ColNames.zip s.ColFmt)).map fun q => q.snd.snd q.fst q.snd.fst

/-- The per-column cell widths `wx` of Go `(*SummaryTable).String`:
`wx[j] = len(u[0])` if it exceeds `len(s.ColNames[j])`, else the latter. -/
def colWidths {α : Type} (s : SummaryTable α) : List Nat :=
  ((colFmtOut s).zip s.ColNames).map fun q =>
    if (q.fst.headD "").length > q.snd.length then (q.fst.headD "").length else q.snd.length

/-- The total table width `s.tw` of Go `(*SummaryTable).String`: the sum of
the column widths, raised to the title length and to `gap + 2*len(Top[0])`
(after `cleanTop` has run) when smaller. -/
def totalWidth {α : Type} (s : SummaryTable α) : Nat :=
  let gap := 10
  let top1 := cleanTop s.Top
  let tw0 := (colWidths s).foldl (fun a b => a + b) 0
  let tw1 := if tw0 < s.Title.length then s.Title.length else tw0
  if tw1 < gap + 2 * (top1.headD "").length then gap + 2 * (top1.headD "").length else tw1

/-- Go `(*SummaryTable).String`: centered title, rule lines of the total
width, metadata block, right-justified header and body cells of the
per-column widths, and trailing messages. -/
def SummaryTable.render {α : Type} (s : SummaryTable α) : String :=
  let top1 := cleanTop s.Top
  let tab := colFmtOut s
  let wx := colWidths s
  let gap := 10
  let tw := totalWidth s
  let kr := (tw - s.Title.length) / 2
  let title := String.mk (List.replicate kr ' ') ++ s.Title ++ "\n"
  let header := String.join ((s.ColNames.zip wx).map fun q => padLeftTo q.fst q.snd) ++ "\n"
  let rows := String.join ((List.range (tab.headD []).length).map fun i =>
    String.join ((tab.zip wx).map fun q => padLeftTo (q.fst.getD i "") q.snd) ++ "\n")
  let msgs := String.join (s.Msg.map fun m => m ++ "\n")
  title ++ lineOf tw '=' ++ topBlock top1 gap ++ lineOf tw '-' ++ header ++
    lineOf tw '-' ++ rows ++ lineOf tw '-' ++ msgs

/-! ### Concrete fixtures used by witnesses and counterexamples -/

/-- A trivial one-parameter model (only `numParams` matters to the derived
accessors). -/
def mTriv : RegFitter :=
  { numParams := 1, numObs := 1, xpos := [], dataset := [[1]],
    loglike := fun _ _ => 0, score := fun _ => [], hessian := fun _ _ => [] }

/-- Results with `vcov = [1]` and point estimate `0`. -/
def rC1 : BaseResults := NewBaseResults mTriv 0 [0] ["x"] (some [1])

/-- Results whose covariance matrix has a negative diagonal entry. -/
def rC3 : BaseResults := NewBaseResults mTriv 0 [0] ["x"] (some [-1])

/-- Results with `vcov = [9]` and point estimate `2`. -/
def rC8 : BaseResults := NewBaseResults mTriv 0 [2] ["x"] (some [9])

/-- A two-parameter model whose expected Hessian is exactly singular
(all zeros). -/
def mZero : RegFitter :=
  { numParams := 2, numObs := 0, xpos := [], dataset := [],
    loglike := fun _ _ => 0, score := fun _ => [], hessian := fun _ _ => [0, 0, 0, 0] }

/-- Results constructed without a covariance matrix. -/
def rNoV : BaseResults := NewBaseResults mTriv 7 [5] ["x"] none

/-- A one-parameter model with two observations, one predictor column. -/
def mC9 : RegFitter :=
  { numParams := 1, numObs := 2, xpos := [0], dataset := [[1, 2]],
    loglike := fun _ _ => 0, score := fun _ => [], hessian := fun _ _ => [] }

/-- Results for `mC9` with coefficient `3` and no covariance matrix. -/
def rC9 : BaseResults := NewBaseResults mC9 0 [3] ["x"] none

/-- The two-parameter model of the spec's end-to-end scenario, with expected
Hessian `[-7, -10, -10, -86]` (row-major 2×2). -/
def mC5 : RegFitter :=
  { numParams := 2, numObs := 0, xpos := [], dataset := [],
    loglike := fun _ _ => 0, score := fun _ => [],
    hessian := fun _ _ => [-7, -10, -10, -86] }

/-- A summary table whose single column formats to values of widths 1 and 3
under a header of width 1. -/
def tC6 : SummaryTable Unit :=
  { Title := "T", ColNames := ["h"], ColFmt := [fun _ _ => ["a", "bbb"]],
    Cols := [()], Top := ["t"], Msg := [] }

/-- Modelled from the spec (comparator for the rendering claim): the
per-column cell width the specification describes, the maximum of the header
length and the width of the WIDEST formatted value of the column. -/
def specColWidths {α : Type} (s : SummaryTable α) : List Nat :=
  ((colFmtOut s).zip s.ColNames).map fun q =>
    max q.snd.length ((q.fst.map String.length).foldl max 0)

end Statmodel

namespace Statmodel

/-! ### Helper lemmas -/

/-- Every read of an all-zero buffer yields `0`, in or out of bounds. -/
theorem getD_replicate_zero (m k : Nat) : (List.replicate m (0 : ℚ)).getD k 0 = 0 := by
  induction m generalizing k with
  | zero => simp
  | succ n ih =>
    cases k with
    | zero => simp [List.replicate]
    | succ k => simp [List.replicate, ih k]

/-- Reading an all-zero row-major buffer as a matrix gives the zero matrix. -/
theorem matOf_replicate_zero (n : Nat) : matOf n (List.replicate (n * n) (0 : ℚ)) = 0 := by
  ext i j
  simp [matOf, getD_replicate_zero]

/-- Reading back the row-major buffer of a square matrix recovers the
matrix. -/
theorem matOf_flatten (n : Nat) (M : Matrix (Fin n) (Fin n) ℚ) :
    matOf n (flatten n M) = M := by
  ext i j
  rcases i with ⟨i, hi⟩
  rcases j with ⟨j, hj⟩
  have hlt : i * n + j < n * n := by
    calc i * n + j < i * n + n := Nat.add_lt_add_left hj _
    _ = (i + 1) * n := by ring
    _ ≤ n * n := Nat.mul_le_mul_right n hi
  have hdiv : (i * n + j) / n = i := by
    have hn : 0 < n := Nat.lt_of_le_of_lt (Nat.zero_le j) hj
    rw [Nat.add_comm, Nat.mul_comm, Nat.add_mul_div_left _ _ hn, Nat.div_eq_of_lt hj]
    simp
  have hmod : (i * n + j) % n = j := by
    rw [Nat.add_comm, Nat.mul_comm, Nat.add_mul_mod_self_left, Nat.mod_eq_of_lt hj]
  simp only [matOf, Matrix.of_apply, flatten]
  rw [List.getD_eq_getElem?_getD, List.getElem?_ofFn]
  simp only [List.ofFnNthVal, hlt, dif_pos, Option.getD_some]
  simp [hdiv, hmod]

/-- A single predictor-column accumulation succeeds and preserves the buffer
length when the coefficient index is in range and the column is no longer
than the buffer. -/
theorem fittedStep_ok (params fv : List Dtype) (k : Nat) (z : List Dtype)
    (hk : k < params.length) (hz : z.length ≤ fv.length) :
    ∃ fv2, fittedStep params fv k z = Except.ok fv2 ∧ fv2.length = fv.length := by
  cases z with
  | nil => exact ⟨fv, rfl, rfl⟩
  | cons a zs =>
    simp only [fittedStep, List.get?_eq_get hk]
    rw [if_pos hz]
    exact ⟨_, rfl, by simp⟩

/-- The accumulation loop of `FittedValues` succeeds and preserves the buffer
length when every listed position has an in-range coefficient index and a
column no longer than the buffer. -/
theorem fittedLoop_ok (params : List Dtype) (da : List (List Dtype))
    (ps : List (Nat × Nat)) (fv : List Dtype)
    (h : ∀ q ∈ ps, q.fst < params.length ∧
      ∃ z, da.get? q.snd = some z ∧ z.length ≤ fv.length) :
    ∃ fv2, fittedLoop params da ps fv = Except.ok fv2 ∧ fv2.length = fv.length := by
  induction ps generalizing fv with
  | nil => exact ⟨fv, rfl, rfl⟩
  | cons q rest ih =>
    obtain ⟨hk, z, hz, hzlen⟩ := h q (List.mem_cons_self q rest)
    obtain ⟨k, j⟩ := q
    unfold fittedLoop
    rw [hz]
    obtain ⟨fv2, hstep, hlen2⟩ := fittedStep_ok params fv k z hk hzlen
    simp only [hstep]
    have hrest : ∀ q ∈ rest, q.fst < params.length ∧
        ∃ z, da.get? q.snd = some z ∧ z.length ≤ fv2.length := by
      intro q hq
      obtain ⟨hk2, z2, hz2, hzlen2⟩ := h q (List.mem_cons_of_mem _ hq)
      exact ⟨hk2, z2, hz2, by rw [hlen2]; exact hzlen2⟩
    obtain ⟨fv3, hloop, hlen3⟩ := ih fv2 hrest
    exact ⟨fv3, hloop, by rw [hlen3, hlen2]⟩

/-! ### Claim theorems -/

/-- C2 counterexample: `NewDataset` accepts a dataset whose declared response
name `"y"` and predictor name `"b"` do not occur among the variable names
`["a"]` — no error is reported at construction time. -/
theorem C2_counterexample :
    NewDataset [[1]] ["a"] "y" ["b"] =
      Except.ok { data := [[1]], yname := "y", varnames := ["a"], xnames := ["b"] } ∧
    ("y" ∈ (["a"] : List String)) = False ∧ ("b" ∈ (["a"] : List String)) = False := by
  refine ⟨rfl, ?_, ?_⟩ <;> simp

/-- C2 (amended): `NewDataset` reports an error at construction iff the number
of data columns differs from the number of variable names; declared response
and predictor names are never checked against the variable names, and
`FromColumns` performs no validation at all. -/
theorem C2_construction_checks_only_column_count :
    (∀ (data : List (List Dtype)) (varnames : List String) (yname : String)
        (xnames : List String),
      (∃ d, NewDataset data varnames yname xnames = Except.ok d) ↔
        data.length = varnames.length) ∧
    (∀ (c : Columnser) (yname : String) (xnames : List String),
      FromColumns c yname xnames =
        { data := c.data, yname := yname, varnames := c.names, xnames := xnames }) := by
  constructor
  · intro data varnames yname xnames
    constructor
    · intro hd
      rcases hd with ⟨d, hd⟩
      by_contra hne
      simp [NewDataset, hne] at hd
    · intro he
      refine ⟨⟨data, yname, varnames, xnames⟩, ?_⟩
      simp [NewDataset, he]
  · intro c yname xnames
    rfl

/-- C2 witness: the amended characterization applied at a concrete mismatched
input produces a successfully constructed dataset. -/
theorem C2_witness : ∃ d, NewDataset [[1]] ["a"] "y" ["b"] = Except.ok d :=
  (C2_construction_checks_only_column_count.1 [[1]] ["a"] "y" ["b"]).mpr rfl

/-- C3 counterexample: with covariance matrix `[-1]` (negative diagonal
entry), `StdErr` does not return the absent value — it returns a present
vector (whose entry is `sqrt(-1)`, a NaN in the floating-point original). -/
theorem C3_counterexample :
    (-1 : ℚ) < 0 ∧ (BaseResults.StdErr (fun q => q) rC3).fst ≠ none := by
  constructor
  · norm_num
  · simp [BaseResults.StdErr, rC3, NewBaseResults, mTriv]

/-- C3 (amended): `StdErr` never inspects the sign of the diagonal entries:
whenever the covariance matrix is present it returns a present vector, with
the square-root function applied unconditionally to each diagonal entry (for
a negative entry the float implementation silently yields NaN); it returns
the absent value only when the covariance matrix itself is absent. -/
theorem C3_stderr_present_whenever_vcov_present (sqrt : ℚ → ℚ) (r : BaseResults)
    (v : List Dtype) (hv : r.vcov = some v) :
    ∃ s, (BaseResults.StdErr sqrt r).fst = some s := by
  unfold BaseResults.StdErr
  rw [hv]
  cases hs : r.stderr with
  | none => exact ⟨_, rfl⟩
  | some s => exact ⟨s, rfl⟩

/-- C3 witness: the amended claim applied to the concrete results object with
covariance `[-1]`. -/
theorem C3_witness : ∃ s, (BaseResults.StdErr (fun q => q) rC3).fst = some s :=
  C3_stderr_present_whenever_vcov_present (fun q => q) rC3 [-1] rfl

/-- C8: with the covariance matrix present and the cache still empty, `StdErr`
returns the vector whose `i`-th entry is `sqrt(vcov[i*p+i])` (`p` the model's
parameter count), and a second call returns the now-cached vector unchanged,
leaving the results object as it was. -/
theorem C8_stderr_diagonal_sqrt_and_cached (sqrt : ℚ → ℚ) (r : BaseResults)
    (v : List Dtype) (hv : r.vcov = some v) (hc : r.stderr = none) :
    (BaseResults.StdErr sqrt r).fst =
      some ((List.range r.model.numParams).map fun i =>
        sqrt (v.getD (i * r.model.numParams + i) 0)) ∧
    BaseResults.StdErr sqrt (BaseResults.StdErr sqrt r).snd =
      ((BaseResults.StdErr sqrt r).fst, (BaseResults.StdErr sqrt r).snd) := by
  constructor
  · unfold BaseResults.StdErr
    rw [hv, hc]
  · unfold BaseResults.StdErr
    rw [hv, hc]

/-- C8 witness: for the concrete results object `rC8` (one parameter,
covariance `[9]`), the first call returns `sqrt 9` and the second call is a
cache hit. -/
theorem C8_witness :
    (BaseResults.StdErr (fun q => q) rC8).fst = some [9] ∧
    BaseResults.StdErr (fun q => q) (BaseResults.StdErr (fun q => q) rC8).snd =
      ((BaseResults.StdErr (fun q => q) rC8).fst,
        (BaseResults.StdErr (fun q => q) rC8).snd) := by
  have h := C8_stderr_diagonal_sqrt_and_cached (fun q => q) rC8 [9] rfl rfl
  exact ⟨by simpa using h.1, h.2⟩

/-- C7: with the covariance matrix present and both the standard-error and
z-score caches still empty (so `ZScores` is the first derived accessor ever
called), `ZScores` computes the standard errors on demand and returns the
vector whose `i`-th entry is `params[i] / stderr[i]`. -/
theorem C7_zscores_params_div_stderr (sqrt : ℚ → ℚ) (r : BaseResults)
    (v : List Dtype) (hv : r.vcov = some v) (hs : r.stderr = none)
    (hz : r.zscores = none) :
    ∃ std, (BaseResults.StdErr sqrt r).fst = some std ∧
      (BaseResults.ZScores sqrt r).fst =
        some ((List.range r.model.numParams).map fun i =>
          r.params.getD i 0 / std.getD i 0) := by
  refine ⟨(List.range r.model.numParams).map fun i =>
    sqrt (v.getD (i * r.model.numParams + i) 0), ?_, ?_⟩
  · unfold BaseResults.StdErr
    rw [hv, hs]
  · unfold BaseResults.ZScores
    rw [hv, hz]
    simp only [BaseResults.StdErr, hv, hs]
    simp
    intro a ha hb
    exact absurd hb (Nat.not_le.mpr ha)

/-- C1 (code bug): on the concrete results object `rC1` (one parameter,
estimate `0`, covariance `[1]`), calling `PValues` as the first derived
accessor returns the zero-filled vector `[0]` — the Go loop
`for i, z := range rslt.zscores` ranges over the still-`nil` `zscores` cache
field instead of calling `ZScores()` — whereas the claimed value
`2*normcdf(-|0|)` is `1` (for any `erfc` with `erfc 0 = 1`, here the constant
`1` function), and calling `ZScores` first does make a subsequent `PValues`
return `[1]`. -/
theorem C1_pvalues_skip_zscores_when_called_first :
    (BaseResults.PValues (fun q => q) (fun _ => 1) rC1).fst = some [0] ∧
    2 * normcdf (fun q => q) (fun _ => 1) (-|(0 : ℚ)|) = 1 ∧
    (BaseResults.PValues (fun q => q) (fun _ => 1)
        (BaseResults.ZScores (fun q => q) rC1).snd).fst = some [1] := by
  refine ⟨?_, ?_, ?_⟩
  · simp [BaseResults.PValues, rC1, NewBaseResults, mTriv]
  · simp [normcdf]
  · simp [BaseResults.PValues, BaseResults.ZScores, BaseResults.StdErr, rC1,
      NewBaseResults, mTriv, normcdf]
    rfl

/-- C7 witness: for the concrete results object `rC8` (parameter `2`,
covariance `[9]`), the z-score is `2 / sqrt 9`. -/
theorem C7_witness :
    ∃ std, (BaseResults.StdErr (fun q => q) rC8).fst = some std ∧
      (BaseResults.ZScores (fun q => q) rC8).fst =
        some ((List.range 1).map fun i => ([2] : List ℚ).getD i 0 / std.getD i 0) := by
  have h := C7_zscores_params_div_stderr (fun q => q) rC8 [9] rfl rfl rfl
  exact h

/-- C4: an exactly singular (all-zero) expected Hessian makes `GetVcov` report
the inversion failure and return no covariance matrix; and on any results
object constructed without a covariance matrix, `StdErr`, `ZScores` and
`PValues` all return the absent value while `Params` and `LogLike` still
return the stored point estimates and log-likelihood. -/
theorem C4_singular_hessian_and_absent_stats (m : RegFitter) (pa : List Dtype)
    (r : BaseResults) (sqrt erfc : ℚ → ℚ) (hn : 0 < m.numParams)
    (hz : m.hessian pa HessType.ExpHess = List.replicate (m.numParams * m.numParams) 0)
    (hv : r.vcov = none) :
    GetVcov m pa = Except.error "Can't invert Hessian" ∧
    (BaseResults.StdErr sqrt r).fst = none ∧
    (BaseResults.ZScores sqrt r).fst = none ∧
    (BaseResults.PValues sqrt erfc r).fst = none ∧
    BaseResults.Params r = r.params ∧ BaseResults.LogLike r = r.loglike := by
  refine ⟨?_, ?_, ?_, ?_, rfl, rfl⟩
  · unfold GetVcov
    rw [hz]
    simp [matOf_replicate_zero, Matrix.det_zero (Fin.pos_iff_nonempty.mp hn)]
  · unfold BaseResults.StdErr
    rw [hv]
  · unfold BaseResults.ZScores
    rw [hv]
  · unfold BaseResults.PValues
    rw [hv]

/-- C4 witness: the all-zero two-parameter Hessian of `mZero` is reported as
non-invertible, and the covariance-free results object `rNoV` yields absent
standard errors, z-scores and p-values while keeping its point estimate `[5]`
and log-likelihood `7`. -/
theorem C4_witness :
    GetVcov mZero [0, 0] = Except.error "Can't invert Hessian" ∧
    (BaseResults.StdErr (fun q => q) rNoV).fst = none ∧
    (BaseResults.ZScores (fun q => q) rNoV).fst = none ∧
    (BaseResults.PValues (fun q => q) (fun _ => 1) rNoV).fst = none ∧
    BaseResults.Params rNoV = rNoV.params ∧ BaseResults.LogLike rNoV = rNoV.loglike :=
  C4_singular_hessian_and_absent_stats mZero [0, 0] rNoV (fun q => q) (fun _ => 1)
    (by norm_num [mZero]) rfl rfl

/-- C5: whenever the expected Hessian read from the `num_params()²` buffer is
invertible, `GetVcov` succeeds, and the returned buffer, read back as a square
matrix, is the negated inverse of the expected Hessian; consequently its
product with the expected Hessian is the negated identity matrix. -/
theorem C5_vcov_is_negated_inverse_of_hessian (m : RegFitter) (pa : List Dtype)
    (hdet : (matOf m.numParams (m.hessian pa HessType.ExpHess)).det ≠ 0) :
    ∃ v, GetVcov m pa = Except.ok v ∧
      matOf m.numParams v * matOf m.numParams (m.hessian pa HessType.ExpHess) = -1 ∧
      matOf m.numParams v = -(matOf m.numParams (m.hessian pa HessType.ExpHess))⁻¹ := by
  refine ⟨flatten m.numParams
    (-((matOf m.numParams (m.hessian pa HessType.ExpHess)).det⁻¹ •
       (matOf m.numParams (m.hessian pa HessType.ExpHess)).adjugate)), ?_, ?_, ?_⟩
  · unfold GetVcov
    simp [hdet]
  · rw [matOf_flatten, Matrix.neg_mul, Matrix.smul_mul, Matrix.adjugate_mul,
      smul_smul, inv_mul_cancel₀ hdet, one_smul]
  · rw [matOf_flatten, Matrix.inv_def, Ring.inverse_eq_inv]

/-- C5 witness: for the model with expected Hessian `[-7, -10, -10, -86]` the
covariance matrix is produced and is the inverse of `[7, 10, 10, 86]` (the
negated inverse of the Hessian), whose product with the Hessian is `-I`. -/
theorem C5_witness :
    ∃ v, GetVcov mC5 [0, 0] = Except.ok v ∧
      matOf mC5.numParams v * matOf mC5.numParams (mC5.hessian [0, 0] HessType.ExpHess) = -1 ∧
      matOf mC5.numParams v = -(matOf mC5.numParams (mC5.hessian [0, 0] HessType.ExpHess))⁻¹ :=
  C5_vcov_is_negated_inverse_of_hessian mC5 [0, 0]
    (by simp [Matrix.det_fin_two, matOf, mC5]; norm_num)

/-- C9: supplying `FittedValues` with a dataset whose column count differs
from the training dataset's is reported as an error (the Go code panics with
the column-count message) rather than silently truncating or padding, and
supplying the Go `nil` dataset gives exactly the same result as supplying the
training dataset itself. -/
theorem C9_fitted_values_check_and_default (r : BaseResults)
    (da : List (List Dtype)) (hmis : da.length ≠ r.model.dataset.length) :
    BaseResults.FittedValues r (some da) =
      Except.error ("Data has incorrect number of columns, " ++ toString da.length ++
        " != " ++ toString r.model.dataset.length) ∧
    BaseResults.FittedValues r none = BaseResults.FittedValues r (some r.model.dataset) := by
  constructor
  · unfold BaseResults.FittedValues
    simp [hmis]
  · rfl

/-- C9 witness: on `rC9` (one training column), a two-column dataset is
rejected with the column-count message, and the `nil` call agrees with the
call on the training data. -/
theorem C9_witness :
    BaseResults.FittedValues rC9 (some [[1], [2]]) =
      Except.error ("Data has incorrect number of columns, " ++
        toString ([[1], [2]] : List (List Dtype)).length ++
        " != " ++ toString rC9.model.dataset.length) ∧
    BaseResults.FittedValues rC9 none =
      BaseResults.FittedValues rC9 (some rC9.model.dataset) :=
  C9_fitted_values_check_and_default rC9 [[1], [2]] (by decide)

/-- C10: `FittedValues` validates only the column count.  On `rC9` (two
observations, one predictor column), a supplied dataset with the correct
column count whose predictor column has length `3 > NumObs() = 2` makes the
buffer write go out of bounds (Go: runtime panic); and under the unchecked
precondition that every column at a predictor position exists and has length
at most `NumObs()` (with the coefficient indices in range), `FittedValues`
is total and returns a buffer of length `NumObs()`. -/
theorem C10_fitted_values_out_of_bounds_and_totality :
    BaseResults.FittedValues rC9 (some [[1, 2, 3]]) = Except.error "index out of range" ∧
    ∀ (r : BaseResults) (da : List (List Dtype)),
      da.length = r.model.dataset.length →
      r.model.xpos.length ≤ r.params.length →
      (∀ j ∈ r.model.xpos, ∃ z, da.get? j = some z ∧ z.length ≤ r.model.numObs) →
      ∃ fv, BaseResults.FittedValues r (some da) = Except.ok fv ∧
        fv.length = r.model.numObs := by
  constructor
  · rfl
  · intro r da hlen hxp hcol
    have hall : ∀ q ∈ r.model.xpos.enum, q.fst < r.params.length ∧
        ∃ z, da.get? q.snd = some z ∧
          z.length ≤ (List.replicate r.model.numObs (0 : ℚ)).length := by
      intro q hq
      have hget := List.mem_enum_iff_getElem?.mp hq
      obtain ⟨hqlt, -⟩ := List.getElem?_eq_some.mp hget
      obtain ⟨z, hz, hzlen⟩ := hcol q.snd (List.getElem?_mem hget)
      exact ⟨Nat.lt_of_lt_of_le hqlt hxp, z, hz, by simpa using hzlen⟩
    obtain ⟨fv2, hloop, hlen2⟩ :=
      fittedLoop_ok r.params da r.model.xpos.enum (List.replicate r.model.numObs 0) hall
    refine ⟨fv2, ?_, by simpa using hlen2⟩
    unfold BaseResults.FittedValues
    simp only [Option.getD_some]
    rw [if_neg (by simp [hlen])]
    exact hloop

/-- C10 witness: on `rC9` with the well-formed prediction dataset `[[5, 6]]`
(one column of length `NumObs() = 2`), `FittedValues` succeeds with a buffer
of length `2`. -/
theorem C10_witness :
    ∃ fv, BaseResults.FittedValues rC9 (some [[5, 6]]) = Except.ok fv ∧
      fv.length = rC9.model.numObs := by
  refine C10_fitted_values_out_of_bounds_and_totality.2 rC9 [[5, 6]] rfl (by decide) ?_
  intro j hj
  have hj0 : j = 0 := by simpa [rC9, NewBaseResults, mC9] using hj
  subst hj0
  exact ⟨[5, 6], rfl, by norm_num [rC9, NewBaseResults, mC9]⟩

/-- The code's `if len(u[0]) > len(name) { ... }` width choice is the maximum
of the two lengths. -/
theorem ite_gt_eq_max (a b : Nat) : (if a > b then a else b) = max a b := by
  split
  · exact (max_eq_left (le_of_lt (by assumption))).symm
  · exact (max_eq_right (le_of_not_lt (by assumption))).symm

/-- The code's `if tw < x { tw = x }` raising step is the maximum of the two
widths. -/
theorem ite_lt_eq_max (a b : Nat) : (if a < b then b else a) = max a b := by
  split
  · exact (max_eq_right (le_of_lt (by assumption))).symm
  · exact (max_eq_left (le_of_not_lt (by assumption))).symm

/-- A fold of `max` over entry lengths never drops below its initial value. -/
theorem le_foldl_maxlen (l : List String) (a : Nat) :
    a ≤ l.foldl (fun w x => max w x.length) a := by
  induction l generalizing a with
  | nil => exact le_refl a
  | cons t ts ih => exact le_trans (le_max_left a t.length) (ih (max a t.length))

/-- After `cleanTop`, the first metadata entry has the width of the widest
original entry. -/
theorem cleanTop_headD_length (top : List String) (h : top ≠ []) :
    ((cleanTop top).headD "").length = top.foldl (fun w x => max w x.length) 0 := by
  cases top with
  | nil => exact absurd rfl h
  | cons t ts =>
    simp only [cleanTop, List.headD_cons, List.map_cons, List.foldl_cons, max_self,
      Nat.zero_max]
    have hle : t.length ≤ ts.foldl (fun w x => max w x.length) t.length :=
      le_foldl_maxlen ts t.length
    split
    · rw [String.length_append]
      simp only [String.length, List.length_replicate]
      exact Nat.add_sub_cancel' hle
    · exact le_antisymm hle (le_of_not_lt (by assumption))

/-- C6 counterexample: for the table `tC6` the code's cell width is `1`
(header length vs. width of the FIRST formatted value `"a"`), not the `3`
(header length vs. widest formatted value `"bbb"`) the claim requires. -/
theorem C6_counterexample :
    colWidths tC6 = [1] ∧ specColWidths tC6 = [3] ∧ ([1] : List Nat) ≠ [3] :=
  ⟨rfl, rfl, by decide⟩

/-- C6 (amended): each column's cell width equals the maximum of its header
length and the width of the FIRST formatted value of the column (not the
widest); the total table width is the largest of the sum of the column
widths, the title length, and the metadata gap (10) plus twice the common
(maximal) metadata-entry width; consequently the total width is never smaller
than the title length nor smaller than any single column's width. -/
theorem C6_width_arithmetic {α : Type} (s : SummaryTable α) (htop : s.Top ≠ []) :
    colWidths s = ((colFmtOut s).zip s.ColNames).map
      (fun q => max (q.fst.headD "").length q.snd.length) ∧
    totalWidth s = max (max ((colWidths s).foldl (fun a b => a + b) 0) s.Title.length)
      (10 + 2 * s.Top.foldl (fun w x => max w x.length) 0) ∧
    s.Title.length ≤ totalWidth s ∧
    ∀ w ∈ colWidths s, w ≤ totalWidth s := by
  have h2 : totalWidth s = max (max ((colWidths s).foldl (fun a b => a + b) 0)
      s.Title.length) (10 + 2 * s.Top.foldl (fun w x => max w x.length) 0) := by
    simp only [totalWidth]
    rw [cleanTop_headD_length s.Top htop, ite_lt_eq_max, ite_lt_eq_max]
  refine ⟨?_, h2, ?_, ?_⟩
  · unfold colWidths
    apply List.map_congr_left
    intro q _
    rw [ite_gt_eq_max, max_comm]
  · rw [h2]
    exact le_trans (le_max_right _ _) (le_max_left _ _)
  · intro w hw
    have hfold : (colWidths s).foldl (fun a b => a + b) 0 = (colWidths s).sum := by
      rw [List.sum_eq_foldl]
    have hsum : w ≤ (colWidths s).foldl (fun a b => a + b) 0 := by
      rw [hfold]
      exact List.single_le_sum (fun b _ => Nat.zero_le b) w hw
    rw [h2]
    exact le_trans hsum (le_trans (le_max_left _ _) (le_max_left _ _))

/-- C6 witness: the amended width arithmetic evaluated on the concrete table
`tC6` (column width 1, title width 1, metadata width 1, total width 12). -/
theorem C6_witness :
    colWidths tC6 = ((colFmtOut tC6).zip tC6.ColNames).map
      (fun q => max (q.fst.headD "").length q.snd.length) ∧
    totalWidth tC6 = max (max ((colWidths tC6).foldl (fun a b => a + b) 0)
      tC6.Title.length)
      (10 + 2 * tC6.Top.foldl (fun w x => max w x.length) 0) ∧
    tC6.Title.length ≤ totalWidth tC6 ∧
    ∀ w ∈ colWidths tC6, w ≤ totalWidth tC6 :=
  C6_width_arithmetic tC6 (by decide)

end Statmodel
